import Mathlib

/-!
Verification of the segmented parallel search coordinator in
`src/batch_calculate/run.py`.

The Python program is shallowly embedded: the range-partitioning
arithmetic of `main` (lines 75-84), the coordinator loop (lines 93-128),
and the shutdown/report phase (lines 133-147) become executable Lean
definitions, and the specification's testable properties are stated and
settled as theorems about those definitions.
-/

namespace BatchCalculate

/-! ## Configuration constants (run.py lines 13-18) -/

def TOTAL_START : Int := 1000560284742167

def TOTAL_END : Int := 2 * (10 ^ 15)

def NUM_SEGMENTS : Nat := 8

def OVERLAP : Int := 2004

def PROGRESS_THROTTLE : Nat := 10

/-! ## Range partitioner (run.py lines 75-84)

The Python code computes, with the constants abstracted as parameters:
`seg_len = (total_end - total_start) // num_segments` (Python `//` is
floor division, i.e. `Int.fdiv`),
`seg_start = total_start + i * seg_len`,
`seg_end = total_start + (i+1) * seg_len - 1` for `i < num_segments - 1`
and `total_end` for the last segment,
`ext_start = max(total_start, seg_start - overlap)`,
`ext_end = min(total_end, seg_end + overlap)`. -/

def segLen (S E : Int) (N : Nat) : Int := Int.fdiv (E - S) (N : Int)

def segStart (S E : Int) (N : Nat) (i : Nat) : Int := S + (i : Int) * segLen S E N

def segEnd (S E : Int) (N : Nat) (i : Nat) : Int :=
  if i < N - 1 then S + ((i : Int) + 1) * segLen S E N - 1 else E

def extStart (S E : Int) (N : Nat) (ov : Int) (i : Nat) : Int :=
  max S (segStart S E N i - ov)

def extEnd (S E : Int) (N : Nat) (ov : Int) (i : Nat) : Int :=
  min E (segEnd S E N i + ov)

structure Segment where
  id : Nat
  core_start : Int
  core_end : Int
  extended_start : Int
  extended_end : Int
  checkpoint : String
deriving DecidableEq

def mkSegment (S E : Int) (N : Nat) (ov : Int) (i : Nat) : Segment :=
  { id := i
    core_start := segStart S E N i
    core_end := segEnd S E N i
    extended_start := extStart S E N ov i
    extended_end := extEnd S E N ov i
    checkpoint := "checkpoint_" ++ toString i ++ ".bin" }

/-- The list of segments built by the startup loop (run.py lines 79-84);
the code starts one worker per element of this list, unconditionally. -/
def segments (S E : Int) (N : Nat) (ov : Int) : List Segment :=
  (List.range N).map (mkSegment S E N ov)

/-- Number of integers in the closed integer interval `[a, b]`. -/
def icount (a b : Int) : Int := max 0 (b - a + 1)

/-- Number of integers lying in both `[extStart i, extEnd i]` and
`[extStart (i+1), extEnd (i+1)]`: the extended-range intersection at the
internal boundary between segments `i` and `i+1`. -/
def boundaryOverlapCount (S E : Int) (N : Nat) (ov : Int) (i : Nat) : Int :=
  icount (max (extStart S E N ov i) (extStart S E N ov (i + 1)))
         (min (extEnd S E N ov i) (extEnd S E N ov (i + 1)))

/-! ## Worker line protocol and coordinator state (run.py lines 21-24, 93-128)

Python string operations are embedded structurally over `List Char` so
that every definition evaluates in the kernel:
`pyStartsWith s p` is Python's `s.startswith(p)` (prefix test),
`pySplitColon` is `s.split(":")`, `pyStrip` is `s.strip()`. -/

def pyStartsWith (s p : String) : Bool := p.data.isPrefixOf s.data

def splitColonAux : List Char → List (List Char)
  | [] => [[]]
  | c :: cs =>
    let r := splitColonAux cs
    if c = ':' then [] :: r
    else
      match r with
      | [] => [[c]]
      | g :: gs => (c :: g) :: gs

def pySplitColon (s : String) : List String :=
  (splitColonAux s.data).map (fun l => ⟨l⟩)

def pyIsSpace (c : Char) : Bool :=
  c = ' ' || c = '\t' || c = '\n' || c = '\r' || c = '\x0b' || c = '\x0c'

def dropLeadingSpaces : List Char → List Char
  | [] => []
  | c :: cs => if pyIsSpace c then dropLeadingSpaces cs else c :: cs

def pyStrip (s : String) : String :=
  ⟨(dropLeadingSpaces (dropLeadingSpaces s.data.reverse).reverse)⟩

/-- `line.split(":")[1]` as used for a PROGRESS line (run.py line 108). -/
def progressValue (line : String) : String := (pySplitColon line).getD 1 ""

/-- `line.split(":")[1].strip()` as used for a SUCCESS line (run.py line 112). -/
def successValue (line : String) : String := pyStrip ((pySplitColon line).getD 1 "")

/-- The coordinator's mutable state: the `stop_event` flag, the
`results` table (run.py line 22), the `progress_counter`, and the lines
printed so far (progress log lines of line 109, informational lines of
line 120). -/
structure CoordState where
  stopFlag : Bool
  results : List (Option String)
  progressCounter : Nat
  progressLog : List (Nat × String)
  infoLog : List (Nat × String)
deriving DecidableEq

/-- The initial state: `stop_event` clear, `results = [None] * NUM_SEGMENTS`,
counter zero, nothing printed (run.py lines 21-22, 93). -/
def initState : CoordState :=
  { stopFlag := false
    results := List.replicate NUM_SEGMENTS none
    progressCounter := 0
    progressLog := []
    infoLog := [] }

/-- Classification of one dequeued `(seg_id, line)` item
(run.py lines 105-120). -/
def processLine (s : CoordState) (seg : Nat) (line : String) : CoordState :=
  if pyStartsWith line "PROGRESS:" = true then
    if (s.progressCounter + 1) % PROGRESS_THROTTLE = 0 then
      { s with progressCounter := s.progressCounter + 1
               progressLog := s.progressLog ++ [(seg, progressValue line)] }
    else
      { s with progressCounter := s.progressCounter + 1 }
  else if pyStartsWith line "SUCCESS:" = true then
    { s with results := s.results.set seg (some (successValue line))
             stopFlag := true }
  else if line = "" then s
  else { s with infoLog := s.infoLog ++ [(seg, line)] }

/-- A worker's output queue: a FIFO of `(seg_id, stripped line)` pairs as
pushed by its reader thread (run.py lines 26-30). -/
abbrev WorkQueue := List (Nat × String)

/-- One pass of the inner `for q in output_queues` loop (run.py
lines 98-120): each queue yields at most one item (`get_nowait`), the
item is classified, and a SUCCESS item `break`s out of the pass leaving
the remaining queues untouched. Returns the updated state and queues. -/
def tickQueues : CoordState → List WorkQueue → CoordState × List WorkQueue
  | s, [] => (s, [])
  | s, [] :: qs =>
    let r := tickQueues s qs
    (r.1, [] :: r.2)
  | s, ((seg, line) :: rest) :: qs =>
    let s1 := processLine s seg line
    if pyStartsWith line "SUCCESS:" = true then (s1, rest :: qs)
    else
      let r := tickQueues s1 qs
      (r.1, rest :: r.2)

/-- The coordinator loop (run.py lines 95-128), run for at most `fuel`
ticks.  `exited t` models `all(p.poll() is not None for p in processes)`
at tick index `t`: whether every worker process has exited by then.  The
loop first checks the stop flag, then drains the queues (one item per
queue), then exits if all workers have exited; the idle sleep has no
effect on state. -/
def runLoop (exited : Nat → Bool) : Nat → Nat → CoordState → List WorkQueue →
    CoordState × List WorkQueue
  | 0, _, s, qs => (s, qs)
  | fuel + 1, t, s, qs =>
    if s.stopFlag = true then (s, qs)
    else
      let r := tickQueues s qs
      if exited t = true then r
      else runLoop exited fuel (t + 1) r.1 r.2

/-! ## Shutdown and final report (run.py lines 133-147) -/

/-- Python's `<` on strings: lexicographic comparison by code point,
with a strict prefix comparing smaller. -/
def pyLtChars : List Char → List Char → Bool
  | _, [] => false
  | [], _ :: _ => true
  | a :: as, b :: bs =>
    if a.toNat < b.toNat then true
    else if b.toNat < a.toNat then false
    else pyLtChars as bs

def pyLtString (a b : String) : Bool := pyLtChars a.data b.data

/-- Python's binary `min` step on strings: keep the current minimum
unless the next element compares strictly smaller. -/
def pyMin (a b : String) : String := if pyLtString b a = true then b else a

/-- Python's `min(list)` (raises on `[]`, hence `Option`). -/
def pyListMin : List String → Option String
  | [] => none
  | x :: xs => some (xs.foldl pyMin x)

/-- `found = [res for res in results if res is not None]` followed by
`min(found)` when nonempty (run.py lines 143-145). -/
def finalReport (results : List (Option String)) : Option String :=
  pyListMin (results.filterMap id)

/-- The exact text printed by the shutdown phase (run.py lines 144-147). -/
def reportMessage (results : List (Option String)) : String :=
  match finalReport results with
  | some m => "✅ 找到的最小解: " ++ m
  | none => "❌ 在指定范围内未找到解。"

/-- The termination sweep (run.py lines 134-138): `terminate` is called
on every process in the registry, in order; `try ... except: pass`
discards each call's outcome and continues with the next process. -/
def terminateAll (term : Nat → Except String Unit) : List Nat →
    List (Nat × Except String Unit)
  | [] => []
  | p :: ps =>
    let r := term p
    (p, r) :: terminateAll term ps

/-- The whole shutdown phase (run.py lines 133-147): terminate every
registered process, then compute the final report from `results`. -/
def shutdownPhase (term : Nat → Except String Unit) (ps : List Nat)
    (results : List (Option String)) :
    List (Nat × Except String Unit) × Option String :=
  (terminateAll term ps, finalReport results)

/-- Number of recorded (non-`None`) entries in the results table. -/
def countSome (rs : List (Option String)) : Nat := (rs.filterMap id).length

/-- Folding a sequence of dequeued `(seg_id, line)` items through the
coordinator's per-item classification, in dequeue order. -/
def foldItems (s : CoordState) (items : List (Nat × String)) : CoordState :=
  items.foldl (fun a it => processLine a it.1 it.2) s

/-- Numeric value of a decimal digit string: the reading the
specification intends when it says "numeric minimum". -/
def decimalValue (s : String) : Nat :=
  s.data.foldl (fun a c => a * 10 + (c.toNat - 48)) 0

/-! ## Partitioner facts -/

lemma segLen_nonneg {S E : Int} {N : Nat} (hSE : S < E) : 0 ≤ segLen S E N :=
  Int.fdiv_nonneg (by omega) (Int.natCast_nonneg N)

lemma segLen_bounds {S E : Int} {N : Nat} (hSE : S < E) (hN : 1 ≤ N) :
    (N : Int) * segLen S E N ≤ E - S ∧ E - S < (N : Int) * segLen S E N + N := by
  have h1 : (0 : Int) < (N : Int) := by exact_mod_cast hN
  have h := Int.fdiv_add_fmod (E - S) (N : Int)
  have h2 := Int.fmod_nonneg' (E - S) h1
  have h3 := Int.fmod_lt_of_pos (E - S) h1
  unfold segLen
  constructor
  · linarith
  · linarith

lemma segStart_mono {S E : Int} {N : Nat} (hL : 0 ≤ segLen S E N) {i j : Nat}
    (hij : i ≤ j) : segStart S E N i ≤ segStart S E N j := by
  have hc : (i : Int) ≤ (j : Int) := by exact_mod_cast hij
  have := mul_le_mul_of_nonneg_right hc hL
  unfold segStart
  linarith

lemma segStart_succ_eq {S E : Int} {N : Nat} {i : Nat} (hi : i + 1 < N) :
    segStart S E N (i + 1) = segEnd S E N i + 1 := by
  unfold segStart segEnd
  rw [if_pos (by omega : i < N - 1)]
  push_cast
  ring

lemma segStart_ge {S E : Int} {N : Nat} (hL : 0 ≤ segLen S E N) (i : Nat) :
    S ≤ segStart S E N i := by
  have : (0 : Int) ≤ (i : Int) * segLen S E N :=
    mul_nonneg (Int.natCast_nonneg i) hL
  unfold segStart
  linarith

lemma segStart_le_E {S E : Int} {N : Nat} (hSE : S < E) (hN : 1 ≤ N)
    {i : Nat} (hi : i ≤ N) : segStart S E N i ≤ S + (N : Int) * segLen S E N := by
  have hL := segLen_nonneg (N := N) hSE
  have hc : (i : Int) ≤ (N : Int) := by exact_mod_cast hi
  have := mul_le_mul_of_nonneg_right hc hL
  unfold segStart
  linarith

lemma segEnd_le_E {S E : Int} {N : Nat} (hSE : S < E) (hN : 1 ≤ N)
    {i : Nat} (hi : i < N) : segEnd S E N i ≤ E := by
  have hB := segLen_bounds (N := N) hSE hN
  unfold segEnd
  by_cases hc : i < N - 1
  · rw [if_pos hc]
    have hc1 : ((i : Int) + 1) ≤ (N : Int) := by
      have : i + 1 ≤ N := by omega
      exact_mod_cast this
    have := mul_le_mul_of_nonneg_right hc1 (segLen_nonneg (N := N) hSE)
    linarith
  · rw [if_neg hc]

lemma segEnd_last {S E : Int} {N : Nat} (hN : 1 ≤ N) :
    segEnd S E N (N - 1) = E := by
  unfold segEnd
  rw [if_neg (by omega)]

lemma core_cover {S E : Int} {N : Nat} (hSE : S < E) (hN : 1 ≤ N) {x : Int}
    (hx1 : S ≤ x) (hx2 : x ≤ E) :
    ∃ i, i < N ∧ segStart S E N i ≤ x ∧ x ≤ segEnd S E N i := by
  have hL := segLen_nonneg (N := N) hSE
  have hP0 : segStart S E N 0 ≤ x := by
    have := segStart_ge (S := S) (E := E) (N := N) hL 0
    have h0 : segStart S E N 0 = S := by unfold segStart; push_cast; ring
    omega
  have hkle := Nat.findGreatest_le (P := fun i => segStart S E N i ≤ x) (N - 1)
  have hPk : segStart S E N (Nat.findGreatest (fun i => segStart S E N i ≤ x) (N - 1)) ≤ x := by
    have := Nat.findGreatest_spec (P := fun i => segStart S E N i ≤ x)
      (m := 0) (n := N - 1) (Nat.zero_le _) hP0
    simpa using this
  refine ⟨Nat.findGreatest (fun i => segStart S E N i ≤ x) (N - 1), by omega, hPk, ?_⟩
  by_cases hcase : Nat.findGreatest (fun i => segStart S E N i ≤ x) (N - 1) < N - 1
  · have hnp := Nat.findGreatest_is_greatest
      (P := fun i => segStart S E N i ≤ x) (n := N - 1)
      (k := Nat.findGreatest (fun i => segStart S E N i ≤ x) (N - 1) + 1)
      (by omega) (by omega)
    have hlt : x < segStart S E N
        (Nat.findGreatest (fun i => segStart S E N i ≤ x) (N - 1) + 1) := by
      simpa [not_le] using hnp
    have heq := segStart_succ_eq (S := S) (E := E) (N := N)
      (i := Nat.findGreatest (fun i => segStart S E N i ≤ x) (N - 1)) (by omega)
    omega
  · have hk1 : Nat.findGreatest (fun i => segStart S E N i ≤ x) (N - 1) = N - 1 := by
      omega
    rw [hk1]
    rw [segEnd_last hN]
    exact hx2

lemma core_disjoint {S E : Int} {N : Nat} (hSE : S < E) (hN : 1 ≤ N)
    {i j : Nat} (hij : i < j) (hj : j < N) :
    segEnd S E N i < segStart S E N j := by
  have hL := segLen_nonneg (N := N) hSE
  have h1 : segStart S E N (i + 1) ≤ segStart S E N j := segStart_mono hL (by omega)
  have h2 := segStart_succ_eq (S := S) (E := E) (N := N) (i := i) (by omega)
  omega

lemma core_length_sum {S E : Int} {N : Nat} (hSE : S < E) (hN : 1 ≤ N) :
    (Finset.range N).sum (fun i => segEnd S E N i - segStart S E N i + 1) =
      E - S + 1 := by
  obtain ⟨M, rfl⟩ : ∃ M, N = M + 1 := ⟨N - 1, by omega⟩
  rw [Finset.sum_range_succ]
  have h1 : ∀ i ∈ Finset.range M,
      segEnd S E (M + 1) i - segStart S E (M + 1) i + 1 = segLen S E (M + 1) := by
    intro i hi
    have hiM : i < M := Finset.mem_range.mp hi
    unfold segEnd segStart
    rw [if_pos (by omega : i < M + 1 - 1)]
    push_cast
    ring
  rw [Finset.sum_congr rfl h1, Finset.sum_const, Finset.card_range]
  have h2 : segEnd S E (M + 1) M = E := by
    have := segEnd_last (S := S) (E := E) (N := M + 1) (by omega)
    simpa using this
  rw [h2]
  unfold segStart
  rw [nsmul_eq_mul]
  ring

lemma segEnd_ge_start_sub_one {S E : Int} {N : Nat} (hSE : S < E) (hN : 1 ≤ N)
    {j : Nat} (hj : j < N) : segStart S E N j - 1 ≤ segEnd S E N j := by
  have hL := segLen_nonneg (N := N) hSE
  have hB := segLen_bounds (N := N) hSE hN
  unfold segEnd
  by_cases hc : j < N - 1
  · rw [if_pos hc]
    unfold segStart
    push_cast
    nlinarith
  · rw [if_neg hc]
    have := segStart_le_E (S := S) (E := E) hSE hN (i := j) (by omega)
    omega

lemma segEnd_mono_succ {S E : Int} {N : Nat} (hSE : S < E) (hN : 1 ≤ N)
    {i : Nat} (hi : i + 1 < N) : segEnd S E N i ≤ segEnd S E N (i + 1) := by
  have h1 := segStart_succ_eq (S := S) (E := E) (N := N) (i := i) hi
  have h2 := segEnd_ge_start_sub_one (S := S) (E := E) hSE hN (j := i + 1) hi
  omega

lemma boundary_eval {S E : Int} {N : Nat} {ov : Int} (hSE : S < E) (hN : 1 ≤ N)
    (hov0 : 0 ≤ ov) {i : Nat} (hi : i + 1 < N) :
    boundaryOverlapCount S E N ov i =
      icount (max S (segStart S E N (i + 1) - ov))
             (min E (segStart S E N (i + 1) - 1 + ov)) := by
  have hL := segLen_nonneg (N := N) hSE
  have hstart : segStart S E N i ≤ segStart S E N (i + 1) :=
    segStart_mono hL (by omega)
  have hend := segEnd_mono_succ (S := S) (E := E) hSE hN (i := i) hi
  have hcontig := segStart_succ_eq (S := S) (E := E) (N := N) (i := i) hi
  unfold boundaryOverlapCount extStart extEnd
  rw [max_eq_right (max_le_max le_rfl (by omega)),
      min_eq_left (min_le_min le_rfl (by omega))]
  rw [show segEnd S E N i = segStart S E N (i + 1) - 1 by omega]

/-! ## Claim theorems: partitioner -/

/-- C2: for every valid configuration (`total_end > total_start`,
`segment_count ≥ 1`, `0 ≤ overlap < segment length`) the core ranges start
at `total_start`, the last core end is forced to `total_end`, consecutive
core ranges are contiguous, every integer of `[total_start, total_end]`
lies in some core range and in no two distinct ones, and the core lengths
sum to `total_end - total_start + 1`. -/
theorem c2_core_partition_exact (S E : Int) (N : Nat) (ov : Int)
    (hSE : S < E) (hN : 1 ≤ N) (hov0 : 0 ≤ ov) (hov : ov < segLen S E N) :
    segStart S E N 0 = S ∧
    segEnd S E N (N - 1) = E ∧
    (∀ i, i + 1 < N → segStart S E N (i + 1) = segEnd S E N i + 1) ∧
    (∀ x : Int, (S ≤ x ∧ x ≤ E) ↔
      ∃ i, i < N ∧ segStart S E N i ≤ x ∧ x ≤ segEnd S E N i) ∧
    (∀ i j, i < j → j < N → segEnd S E N i < segStart S E N j) ∧
    (Finset.range N).sum (fun i => segEnd S E N i - segStart S E N i + 1) =
      E - S + 1 := by
  have hL := segLen_nonneg (N := N) hSE
  refine ⟨by simp [segStart], segEnd_last hN, ?_, ?_, ?_, core_length_sum hSE hN⟩
  · intro i hi
    exact segStart_succ_eq hi
  · intro x
    constructor
    · rintro ⟨hx1, hx2⟩
      exact core_cover hSE hN hx1 hx2
    · rintro ⟨i, hiN, h1, h2⟩
      have hg := segStart_ge (S := S) (E := E) (N := N) hL i
      have he := segEnd_le_E (S := S) (E := E) hSE hN hiN
      omega
  · intro i j hij hj
    exact core_disjoint hSE hN hij hj

/-- C2 witness: the theorem applied to the concrete valid configuration
`total_start = 0, total_end = 8, segment_count = 2, overlap = 1`. -/
theorem c2_core_partition_exact_witness :
    ((0 : Int) < 8 ∧ 1 ≤ 2 ∧ (0 : Int) ≤ 1 ∧ (1 : Int) < segLen 0 8 2) ∧
    (segStart 0 8 2 0 = 0 ∧
     segEnd 0 8 2 (2 - 1) = 8 ∧
     (∀ i, i + 1 < 2 → segStart 0 8 2 (i + 1) = segEnd 0 8 2 i + 1) ∧
     (∀ x : Int, ((0 : Int) ≤ x ∧ x ≤ 8) ↔
       ∃ i, i < 2 ∧ segStart 0 8 2 i ≤ x ∧ x ≤ segEnd 0 8 2 i) ∧
     (∀ i j, i < j → j < 2 → segEnd 0 8 2 i < segStart 0 8 2 j) ∧
     (Finset.range 2).sum (fun i => segEnd 0 8 2 i - segStart 0 8 2 i + 1) =
       8 - 0 + 1) :=
  ⟨⟨by decide, by decide, by decide, by decide⟩,
   c2_core_partition_exact 0 8 2 1 (by decide) (by decide) (by decide) (by decide)⟩

/-- C4 counterexample: at the valid configuration
`(total_start, total_end, segment_count, overlap) = (100, 200, 2, 5)` the
extended ranges of segments 0 and 1 are `[100, 154]` and `[145, 200]`;
their intersection holds 10 integers, which is neither equal to nor less
than `overlap = 5`, refuting the claim that adjacent extended ranges
overlap by exactly `overlap` (or less only when clipped). -/
theorem c4_overlap_count_counterexample :
    boundaryOverlapCount 100 200 2 5 0 = 10 ∧
    ¬ (boundaryOverlapCount 100 200 2 5 0 = 5 ∨
       boundaryOverlapCount 100 200 2 5 0 < 5) := by decide

/-- C4 (amended): at every internal boundary of a valid configuration the
extended ranges of the two adjacent segments intersect in at most
`2 * overlap` integers, and in exactly `2 * overlap` integers whenever
neither extended bound is clipped at `total_start` or `total_end`. -/
theorem c4_overlap_count_amended (S E : Int) (N : Nat) (ov : Int)
    (hSE : S < E) (hN : 1 ≤ N) (hov0 : 0 ≤ ov) (hov : ov < segLen S E N)
    (i : Nat) (hi : i + 1 < N) :
    boundaryOverlapCount S E N ov i ≤ 2 * ov ∧
    (segEnd S E N i + ov ≤ E → S ≤ segStart S E N (i + 1) - ov →
      boundaryOverlapCount S E N ov i = 2 * ov) := by
  have hcontig := segStart_succ_eq (S := S) (E := E) (N := N) (i := i) hi
  rw [boundary_eval hSE hN hov0 hi]
  constructor
  · have ha : segStart S E N (i + 1) - ov ≤ max S (segStart S E N (i + 1) - ov) :=
      le_max_right _ _
    have hb : min E (segStart S E N (i + 1) - 1 + ov) ≤
        segStart S E N (i + 1) - 1 + ov := min_le_right _ _
    unfold icount
    exact max_le (by linarith) (by linarith)
  · intro hc1 hc2
    rw [max_eq_right (by omega), min_eq_right (by omega)]
    unfold icount
    rw [show segStart S E N (i + 1) - 1 + ov - (segStart S E N (i + 1) - ov) + 1 =
      2 * ov by ring]
    exact max_eq_right (by linarith)

/-- C4 witness: the amended theorem applied at the internal boundary of
the configuration `(100, 200, 2, 5)`, where nothing is clipped and the
intersection holds exactly `2 * 5 = 10` integers. -/
theorem c4_overlap_count_amended_witness :
    ((100 : Int) < 200 ∧ 1 ≤ 2 ∧ (0 : Int) ≤ 5 ∧ (5 : Int) < segLen 100 200 2 ∧
      0 + 1 < 2) ∧
    (boundaryOverlapCount 100 200 2 5 0 ≤ 2 * 5 ∧
     (segEnd 100 200 2 0 + 5 ≤ 200 → (100 : Int) ≤ segStart 100 200 2 1 - 5 →
       boundaryOverlapCount 100 200 2 5 0 = 2 * 5)) :=
  ⟨⟨by decide, by decide, by decide, by decide, by decide⟩,
   c4_overlap_count_amended 100 200 2 5 (by decide) (by decide) (by decide)
     (by decide) 0 (by decide)⟩

/-- C5 counterexample: with `total_start = 100, total_end = 200,
segment_count = 2, overlap = 5` the code clips segment 0's extended start
to `max(100, 100 - 5) = 100`, so the claimed extended range `[95, 154]`
is not produced. -/
theorem c5_example_counterexample :
    ¬ (segStart 100 200 2 0 = 100 ∧ segEnd 100 200 2 0 = 149 ∧
       extStart 100 200 2 5 0 = 95 ∧ extEnd 100 200 2 5 0 = 154 ∧
       segStart 100 200 2 1 = 150 ∧ segEnd 100 200 2 1 = 200 ∧
       extStart 100 200 2 5 1 = 145 ∧ extEnd 100 200 2 5 1 = 200) := by decide

/-- C5 (amended): with `total_start = 100, total_end = 200,
segment_count = 2, overlap = 5` the partitioner produces Segment 0 with
core `[100, 149]` and extended range `[100, 154]` (the extension being
clipped at `total_start = 100`), and Segment 1 with core `[150, 200]` and
extended range `[145, 200]`. -/
theorem c5_example_amended :
    segStart 100 200 2 0 = 100 ∧ segEnd 100 200 2 0 = 149 ∧
    extStart 100 200 2 5 0 = 100 ∧ extEnd 100 200 2 5 0 = 154 ∧
    segStart 100 200 2 1 = 150 ∧ segEnd 100 200 2 1 = 200 ∧
    extStart 100 200 2 5 1 = 145 ∧ extEnd 100 200 2 5 1 = 200 := by decide

/-- C6 counterexample: with `total_end = 100 ≤ total_start = 200` and
`segment_count = 2` the code performs no validation at all: it still
produces two segments (whose first core range is inverted, `[200, 149]`)
and would start a worker for each, instead of failing with
`InvalidConfig` before any worker starts. -/
theorem c6_no_validation_counterexample :
    (100 : Int) ≤ 200 ∧ (segments 200 100 2 0).length = 2 ∧
    (segments 200 100 2 0).length ≠ 0 ∧
    (mkSegment 200 100 2 0 0).core_end < (mkSegment 200 100 2 0 0).core_start := by
  refine ⟨by decide, by decide, by decide, by decide⟩

/-- C6 (amended): the startup code contains no `InvalidConfig` check:
for every input with `segment_count ≥ 1` — `total_end ≤ total_start`
included — it produces exactly `segment_count` segments and starts a
worker for each, never aborting. -/
theorem c6_no_validation_amended (S E : Int) (N : Nat) (ov : Int)
    (hN : 1 ≤ N) :
    (segments S E N ov).length = N ∧ segments S E N ov ≠ [] := by
  have hlen : (segments S E N ov).length = N := by simp [segments]
  refine ⟨hlen, ?_⟩
  intro hnil
  rw [hnil] at hlen
  simp at hlen
  omega

/-- C6 witness: the amended theorem applied to the invalid configuration
`total_start = 300 > total_end = 100`, `segment_count = 2`. -/
theorem c6_no_validation_amended_witness :
    (1 ≤ 2) ∧ ((segments 300 100 2 7).length = 2 ∧ segments 300 100 2 7 ≠ []) :=
  ⟨by decide, c6_no_validation_amended 300 100 2 7 (by decide)⟩

/-! ## Coordinator facts -/

lemma isPrefixOf_false_of_head_ne {a b : Char} {as bs l : List Char}
    (hne : b ≠ a) (h : (a :: as).isPrefixOf l = true) :
    (b :: bs).isPrefixOf l = false := by
  cases l with
  | nil => simp [List.isPrefixOf] at h
  | cons c cs =>
    simp only [List.isPrefixOf, Bool.and_eq_true, beq_iff_eq] at h
    have hbc : (b == c) = false := by
      rw [beq_eq_false_iff_ne]
      rw [← h.1]
      exact hne
    simp [List.isPrefixOf, hbc]

lemma success_not_progress {line : String} (h : pyStartsWith line "SUCCESS:" = true) :
    pyStartsWith line "PROGRESS:" = false := by
  have h' : (('S' : Char) :: "UCCESS:".data).isPrefixOf line.data = true := h
  exact isPrefixOf_false_of_head_ne (by decide) h'

lemma processLine_success {line : String} (h : pyStartsWith line "SUCCESS:" = true)
    (s : CoordState) (seg : Nat) :
    processLine s seg line =
      { s with results := s.results.set seg (some (successValue line))
               stopFlag := true } := by
  unfold processLine
  rw [success_not_progress h, h]
  simp

lemma processLine_not_success {line : String}
    (h : pyStartsWith line "SUCCESS:" = false) (s : CoordState) (seg : Nat) :
    (processLine s seg line).results = s.results ∧
    (processLine s seg line).stopFlag = s.stopFlag := by
  unfold processLine
  rw [h]
  by_cases hp : pyStartsWith line "PROGRESS:" = true
  · rw [if_pos hp]
    by_cases ht : (s.progressCounter + 1) % PROGRESS_THROTTLE = 0
    · rw [if_pos ht]; exact ⟨rfl, rfl⟩
    · rw [if_neg ht]; exact ⟨rfl, rfl⟩
  · rw [if_neg hp, if_neg (by simp)]
    by_cases he : line = ""
    · rw [if_pos he]; exact ⟨rfl, rfl⟩
    · rw [if_neg he]; exact ⟨rfl, rfl⟩

lemma processLine_progress {line : String}
    (h : pyStartsWith line "PROGRESS:" = true) (s : CoordState) (seg : Nat) :
    (processLine s seg line).progressCounter = s.progressCounter + 1 ∧
    (processLine s seg line).progressLog.length = s.progressLog.length +
      (if (s.progressCounter + 1) % PROGRESS_THROTTLE = 0 then 1 else 0) := by
  unfold processLine
  rw [if_pos h]
  by_cases ht : (s.progressCounter + 1) % PROGRESS_THROTTLE = 0
  · rw [if_pos ht, if_pos ht]
    simp
  · rw [if_neg ht, if_neg ht]
    simp

lemma tickQueues_nil (s : CoordState) : tickQueues s [] = (s, []) := rfl

lemma tickQueues_empty (s : CoordState) (qs : List WorkQueue) :
    tickQueues s ([] :: qs) =
      ((tickQueues s qs).1, [] :: (tickQueues s qs).2) := rfl

lemma tickQueues_item (s : CoordState) (seg : Nat) (line : String)
    (rest : WorkQueue) (qs : List WorkQueue) :
    tickQueues s (((seg, line) :: rest) :: qs) =
      if pyStartsWith line "SUCCESS:" = true then
        (processLine s seg line, rest :: qs)
      else
        ((tickQueues (processLine s seg line) qs).1,
         rest :: (tickQueues (processLine s seg line) qs).2) := rfl

lemma runLoop_zero (e : Nat → Bool) (t : Nat) (s : CoordState)
    (qs : List WorkQueue) : runLoop e 0 t s qs = (s, qs) := rfl

lemma runLoop_succ (e : Nat → Bool) (f t : Nat) (s : CoordState)
    (qs : List WorkQueue) :
    runLoop e (f + 1) t s qs =
      if s.stopFlag = true then (s, qs)
      else if e t = true then tickQueues s qs
      else runLoop e f (t + 1) (tickQueues s qs).1 (tickQueues s qs).2 := rfl

lemma runLoop_stopped {s : CoordState} (h : s.stopFlag = true) (e : Nat → Bool)
    (f t : Nat) (qs : List WorkQueue) : runLoop e f t s qs = (s, qs) := by
  cases f with
  | zero => rfl
  | succ f => rw [runLoop_succ, if_pos h]

lemma tick_success_core (qs1 : List WorkQueue) :
    ∀ (s : CoordState) (qs2 : List WorkQueue) (seg : Nat) (line : String)
      (rest : WorkQueue),
    pyStartsWith line "SUCCESS:" = true →
    (∀ q ∈ qs1, ∀ it, q.head? = some it → pyStartsWith it.2 "SUCCESS:" = false) →
    (tickQueues s (qs1 ++ ((seg, line) :: rest) :: qs2)).1.stopFlag = true ∧
    (tickQueues s (qs1 ++ ((seg, line) :: rest) :: qs2)).1.results =
      s.results.set seg (some (successValue line)) ∧
    (tickQueues s (qs1 ++ ((seg, line) :: rest) :: qs2)).2 =
      qs1.map (fun q => q.drop 1) ++ rest :: qs2 := by
  induction qs1 with
  | nil =>
    intro s qs2 seg line rest hline _
    rw [List.nil_append, tickQueues_item, if_pos hline, processLine_success hline]
    exact ⟨rfl, rfl, rfl⟩
  | cons q qs1 ih =>
    intro s qs2 seg line rest hline hq
    cases q with
    | nil =>
      rw [List.cons_append, tickQueues_empty]
      have := ih s qs2 seg line rest hline
        (fun q hq' it hh => hq q (List.mem_cons_of_mem _ hq') it hh)
      exact ⟨this.1, this.2.1, by simp [this.2.2]⟩
    | cons it r' =>
      obtain ⟨p, l⟩ := it
      have hl : pyStartsWith l "SUCCESS:" = false :=
        hq ((p, l) :: r') (List.mem_cons_self _ _) (p, l) rfl
      rw [List.cons_append, tickQueues_item, if_neg (by simp [hl])]
      have hps := processLine_not_success hl s p
      have := ih (processLine s p l) qs2 seg line rest hline
        (fun q hq' it hh => hq q (List.mem_cons_of_mem _ hq') it hh)
      refine ⟨this.1, ?_, by simp [this.2.2]⟩
      rw [this.2.1, hps.1]

/-! ## Claim theorems: coordinator loop -/

/-- C3: when the queues hold a first SUCCESS line — every queue polled
before it yields a non-SUCCESS item — the tick records its payload under
that segment's id, sets the stop flag, leaves all later queues untouched
(each earlier queue contributed exactly one item), and the loop then
terminates within one tick with no further PROGRESS log line emitted. -/
theorem c3_success_stops_loop (s : CoordState) (qs1 qs2 : List WorkQueue)
    (seg : Nat) (line : String) (rest : WorkQueue)
    (hline : pyStartsWith line "SUCCESS:" = true)
    (hqs1 : ∀ q ∈ qs1, ∀ it, q.head? = some it →
      pyStartsWith it.2 "SUCCESS:" = false) :
    (tickQueues s (qs1 ++ ((seg, line) :: rest) :: qs2)).1.stopFlag = true ∧
    (tickQueues s (qs1 ++ ((seg, line) :: rest) :: qs2)).1.results =
      s.results.set seg (some (successValue line)) ∧
    (tickQueues s (qs1 ++ ((seg, line) :: rest) :: qs2)).2 =
      qs1.map (fun q => q.drop 1) ++ rest :: qs2 ∧
    (∀ (e : Nat → Bool) (f t : Nat),
      runLoop e f t (tickQueues s (qs1 ++ ((seg, line) :: rest) :: qs2)).1
          (tickQueues s (qs1 ++ ((seg, line) :: rest) :: qs2)).2 =
        ((tickQueues s (qs1 ++ ((seg, line) :: rest) :: qs2)).1,
         (tickQueues s (qs1 ++ ((seg, line) :: rest) :: qs2)).2)) ∧
    (∀ (e : Nat → Bool) (f t : Nat),
      (runLoop e f t (tickQueues s (qs1 ++ ((seg, line) :: rest) :: qs2)).1
          (tickQueues s (qs1 ++ ((seg, line) :: rest) :: qs2)).2).1.progressLog =
        (tickQueues s (qs1 ++ ((seg, line) :: rest) :: qs2)).1.progressLog) := by
  have hc := tick_success_core qs1 s qs2 seg line rest hline hqs1
  have hrun : ∀ (e : Nat → Bool) (f t : Nat),
      runLoop e f t (tickQueues s (qs1 ++ ((seg, line) :: rest) :: qs2)).1
          (tickQueues s (qs1 ++ ((seg, line) :: rest) :: qs2)).2 =
        ((tickQueues s (qs1 ++ ((seg, line) :: rest) :: qs2)).1,
         (tickQueues s (qs1 ++ ((seg, line) :: rest) :: qs2)).2) :=
    fun e f t => runLoop_stopped hc.1 e f t _
  exact ⟨hc.1, hc.2.1, hc.2.2, hrun, fun e f t => by rw [hrun e f t]⟩

/-- C3 witness: the theorem applied to a concrete tick in which queue 0
yields a PROGRESS item and queue 1 yields `SUCCESS:42`. -/
theorem c3_success_stops_loop_witness :
    (pyStartsWith "SUCCESS:42" "SUCCESS:" = true) ∧
    (∀ q ∈ [[(0, "PROGRESS:7")]], ∀ it, q.head? = some it →
      pyStartsWith it.2 "SUCCESS:" = false) ∧
    ((tickQueues initState
        ([[(0, "PROGRESS:7")]] ++ ((1, "SUCCESS:42") :: [(1, "x")]) :: [[(0, "y")]])).1.stopFlag = true ∧
     (tickQueues initState
        ([[(0, "PROGRESS:7")]] ++ ((1, "SUCCESS:42") :: [(1, "x")]) :: [[(0, "y")]])).1.results =
       initState.results.set 1 (some (successValue "SUCCESS:42")) ∧
     (tickQueues initState
        ([[(0, "PROGRESS:7")]] ++ ((1, "SUCCESS:42") :: [(1, "x")]) :: [[(0, "y")]])).2 =
       [[(0, "PROGRESS:7")]].map (fun q => q.drop 1) ++ [(1, "x")] :: [[(0, "y")]] ∧
     (∀ (e : Nat → Bool) (f t : Nat),
       runLoop e f t (tickQueues initState
           ([[(0, "PROGRESS:7")]] ++ ((1, "SUCCESS:42") :: [(1, "x")]) :: [[(0, "y")]])).1
           (tickQueues initState
           ([[(0, "PROGRESS:7")]] ++ ((1, "SUCCESS:42") :: [(1, "x")]) :: [[(0, "y")]])).2 =
         ((tickQueues initState
           ([[(0, "PROGRESS:7")]] ++ ((1, "SUCCESS:42") :: [(1, "x")]) :: [[(0, "y")]])).1,
          (tickQueues initState
           ([[(0, "PROGRESS:7")]] ++ ((1, "SUCCESS:42") :: [(1, "x")]) :: [[(0, "y")]])).2)) ∧
     (∀ (e : Nat → Bool) (f t : Nat),
       (runLoop e f t (tickQueues initState
           ([[(0, "PROGRESS:7")]] ++ ((1, "SUCCESS:42") :: [(1, "x")]) :: [[(0, "y")]])).1
           (tickQueues initState
           ([[(0, "PROGRESS:7")]] ++ ((1, "SUCCESS:42") :: [(1, "x")]) :: [[(0, "y")]])).2).1.progressLog =
         (tickQueues initState
           ([[(0, "PROGRESS:7")]] ++ ((1, "SUCCESS:42") :: [(1, "x")]) :: [[(0, "y")]])).1.progressLog)) :=
  ⟨by decide, by decide,
   c3_success_stops_loop initState [[(0, "PROGRESS:7")]] [[(0, "y")]] 1
     "SUCCESS:42" [(1, "x")] (by decide) (by decide)⟩

lemma fold_progress (items : List (Nat × String)) :
    ∀ s : CoordState, (∀ it ∈ items, pyStartsWith it.2 "PROGRESS:" = true) →
    (foldItems s items).progressCounter = s.progressCounter + items.length ∧
    (foldItems s items).progressLog.length = s.progressLog.length +
      ((s.progressCounter + items.length) / PROGRESS_THROTTLE -
        s.progressCounter / PROGRESS_THROTTLE) := by
  induction items with
  | nil => intro s _; simp [foldItems]
  | cons it items ih =>
    intro s hall
    have hit : pyStartsWith it.2 "PROGRESS:" = true :=
      hall it (List.mem_cons_self _ _)
    have hstep := processLine_progress hit s it.1
    have hrest := ih (processLine s it.1 it.2)
      (fun j hj => hall j (List.mem_cons_of_mem _ hj))
    have hfold : foldItems s (it :: items) =
        foldItems (processLine s it.1 it.2) items := rfl
    rw [hfold]
    have hsd : (s.progressCounter + 1) / PROGRESS_THROTTLE =
        s.progressCounter / PROGRESS_THROTTLE +
        if PROGRESS_THROTTLE ∣ s.progressCounter + 1 then 1 else 0 :=
      Nat.succ_div _ _
    simp only [Nat.dvd_iff_mod_eq_zero] at hsd
    have hmono : (s.progressCounter + 1) / PROGRESS_THROTTLE ≤
        (s.progressCounter + 1 + items.length) / PROGRESS_THROTTLE :=
      Nat.div_le_div_right (by omega)
    constructor
    · rw [hrest.1, hstep.1]
      simp [List.length_cons]
      omega
    · rw [hrest.2, hstep.2, hstep.1]
      by_cases hd : (s.progressCounter + 1) % PROGRESS_THROTTLE = 0
      · rw [if_pos hd] at hsd ⊢
        simp only [List.length_cons]
        have : s.progressCounter + (items.length + 1) =
            s.progressCounter + 1 + items.length := by omega
        rw [this]
        omega
      · rw [if_neg hd] at hsd ⊢
        simp only [List.length_cons]
        have : s.progressCounter + (items.length + 1) =
            s.progressCounter + 1 + items.length := by omega
        rw [this]
        omega

lemma div_window_bound (c n T : Nat) (hT : 0 < T) :
    (c + n) / T - c / T ≤ (n + T - 1) / T := by
  obtain ⟨q, r, hr, rfl⟩ : ∃ q r, r < T ∧ c = T * q + r :=
    ⟨c / T, c % T, Nat.mod_lt _ hT, (Nat.div_add_mod c T).symm⟩
  rw [Nat.add_assoc, Nat.mul_add_div hT, Nat.mul_add_div hT,
      Nat.div_eq_of_lt hr, Nat.add_zero, Nat.add_sub_cancel_left]
  have h1 : r + n ≤ n + T - 1 := by omega
  exact Nat.div_le_div_right h1

/-- C7: each dequeued PROGRESS line increments `progress_counter` by
exactly one (so the counter never decreases), a progress log line is
emitted on a step exactly when the incremented counter is divisible by
the throttle constant, and a sequence of `n` PROGRESS lines emits at most
`⌈n / throttle⌉` log lines. -/
theorem c7_progress_throttle :
    (∀ (s : CoordState) (seg : Nat) (line : String),
      pyStartsWith line "PROGRESS:" = true →
      (processLine s seg line).progressCounter = s.progressCounter + 1 ∧
      s.progressCounter ≤ (processLine s seg line).progressCounter ∧
      ((processLine s seg line).progressLog.length = s.progressLog.length + 1 ↔
        (s.progressCounter + 1) % PROGRESS_THROTTLE = 0)) ∧
    (∀ (s : CoordState) (items : List (Nat × String)),
      (∀ it ∈ items, pyStartsWith it.2 "PROGRESS:" = true) →
      (foldItems s items).progressCounter = s.progressCounter + items.length ∧
      s.progressCounter ≤ (foldItems s items).progressCounter ∧
      (foldItems s items).progressLog.length ≤ s.progressLog.length +
        (items.length + PROGRESS_THROTTLE - 1) / PROGRESS_THROTTLE) := by
  constructor
  · intro s seg line h
    have hstep := processLine_progress h s seg
    refine ⟨hstep.1, by omega, ?_⟩
    by_cases hd : (s.progressCounter + 1) % PROGRESS_THROTTLE = 0
    · rw [if_pos hd] at hstep
      constructor
      · intro _; exact hd
      · intro _; exact hstep.2
    · rw [if_neg hd] at hstep
      constructor
      · intro hh; rw [hstep.2] at hh; omega
      · intro hh; exact absurd hh hd
  · intro s items hall
    have hfold := fold_progress items s hall
    have hbound := div_window_bound s.progressCounter items.length
      PROGRESS_THROTTLE (by norm_num [PROGRESS_THROTTLE])
    refine ⟨hfold.1, by omega, by omega⟩

/-- C7 witness: the theorem applied to one concrete PROGRESS line and to
a concrete sequence of eleven PROGRESS items starting from the initial
state (counter 0), which emits exactly one log line, within the bound
`⌈11 / 10⌉ = 2`. -/
theorem c7_progress_throttle_witness :
    (pyStartsWith "PROGRESS:5" "PROGRESS:" = true) ∧
    ((processLine initState 0 "PROGRESS:5").progressCounter =
        initState.progressCounter + 1 ∧
      initState.progressCounter ≤ (processLine initState 0 "PROGRESS:5").progressCounter ∧
      ((processLine initState 0 "PROGRESS:5").progressLog.length =
          initState.progressLog.length + 1 ↔
        (initState.progressCounter + 1) % PROGRESS_THROTTLE = 0)) ∧
    (∀ it ∈ List.replicate 11 (0, "PROGRESS:3"), pyStartsWith it.2 "PROGRESS:" = true) ∧
    ((foldItems initState (List.replicate 11 (0, "PROGRESS:3"))).progressCounter =
        initState.progressCounter + (List.replicate 11 (0, "PROGRESS:3")).length ∧
      initState.progressCounter ≤
        (foldItems initState (List.replicate 11 (0, "PROGRESS:3"))).progressCounter ∧
      (foldItems initState (List.replicate 11 (0, "PROGRESS:3"))).progressLog.length ≤
        initState.progressLog.length +
          ((List.replicate 11 (0, "PROGRESS:3")).length + PROGRESS_THROTTLE - 1) /
            PROGRESS_THROTTLE) :=
  ⟨by decide,
   c7_progress_throttle.1 initState 0 "PROGRESS:5" (by decide),
   by decide,
   c7_progress_throttle.2 initState (List.replicate 11 (0, "PROGRESS:3")) (by decide)⟩

/-- C8: whenever every worker process has exited by tick `t` (the
`all(p.poll() is not None)` test succeeds) and no stop was requested, the
coordinator loop performs that tick's drain and then exits — even though
no SUCCESS line was ever observed. -/
theorem c8_all_exited_exit (e : Nat → Bool) (f t : Nat) (s : CoordState)
    (qs : List WorkQueue) (hstop : s.stopFlag = false) (hex : e t = true) :
    runLoop e (f + 1) t s qs = tickQueues s qs := by
  rw [runLoop_succ, if_neg (by simp [hstop]), if_pos hex]

/-- C8 witness: the theorem applied to a loop whose workers have all
exited at tick 0, holding only informational output and no SUCCESS. -/
theorem c8_all_exited_exit_witness :
    initState.stopFlag = false ∧ (fun _ : Nat => true) 0 = true ∧
    runLoop (fun _ => true) (3 + 1) 0 initState [[(0, "hello")]] =
      tickQueues initState [[(0, "hello")]] :=
  ⟨rfl, rfl, c8_all_exited_exit (fun _ => true) 3 0 initState [[(0, "hello")]] rfl rfl⟩

lemma countSome_set_le (rs : List (Option String)) :
    ∀ (seg : Nat) (v : String),
    countSome (rs.set seg (some v)) ≤ countSome rs + 1 := by
  induction rs with
  | nil => intro seg v; simp [countSome]
  | cons a tl ih =>
    intro seg v
    cases seg with
    | zero =>
      cases a <;> simp [countSome, List.filterMap_cons] <;> omega
    | succ n =>
      have := ih n v
      cases a <;> simp [countSome, List.filterMap_cons, List.set] <;>
        simpa [countSome] using this

lemma tick_invariant (qs : List WorkQueue) :
    ∀ s : CoordState, s.stopFlag = false → countSome s.results = 0 →
    countSome (tickQueues s qs).1.results ≤ 1 ∧
    ((tickQueues s qs).1.stopFlag = false →
      countSome (tickQueues s qs).1.results = 0) := by
  induction qs with
  | nil =>
    intro s h1 h2
    rw [tickQueues_nil]
    refine ⟨?_, fun _ => h2⟩
    show countSome s.results ≤ 1
    omega
  | cons q qs ih =>
    intro s h1 h2
    cases q with
    | nil =>
      rw [tickQueues_empty]
      exact ih s h1 h2
    | cons it r' =>
      obtain ⟨p, l⟩ := it
      rw [tickQueues_item]
      by_cases hl : pyStartsWith l "SUCCESS:" = true
      · rw [if_pos hl, processLine_success hl]
        constructor
        · have := countSome_set_le s.results p (successValue l)
          simpa using by omega
        · intro hh
          simp at hh
      · rw [if_neg (by simp [hl])]
        have hl' : pyStartsWith l "SUCCESS:" = false := by
          simpa using hl
        have hps := processLine_not_success hl' s p
        exact ih (processLine s p l) (by rw [hps.2]; exact h1)
          (by rw [hps.1]; exact h2)

lemma runLoop_countSome (e : Nat → Bool) :
    ∀ (f t : Nat) (s : CoordState) (qs : List WorkQueue),
    countSome s.results ≤ 1 → (s.stopFlag = false → countSome s.results = 0) →
    countSome (runLoop e f t s qs).1.results ≤ 1 := by
  intro f
  induction f with
  | zero =>
    intro t s qs h1 _
    rw [runLoop_zero]
    exact h1
  | succ f ih =>
    intro t s qs h1 h2
    rw [runLoop_succ]
    by_cases hs : s.stopFlag = true
    · rw [if_pos hs]; exact h1
    · rw [if_neg hs]
      have hs' : s.stopFlag = false := by simpa using hs
      have htick := tick_invariant qs s hs' (h2 hs')
      by_cases he : e t = true
      · rw [if_pos he]; exact htick.1
      · rw [if_neg he]; exact ih (t + 1) _ _ htick.1 htick.2

lemma report_of_single (rs : List (Option String)) (h : countSome rs ≤ 1)
    {v : String} (hv : some v ∈ rs) : finalReport rs = some v := by
  have hmem : v ∈ rs.filterMap id := List.mem_filterMap.mpr ⟨some v, hv, rfl⟩
  have hlen : (rs.filterMap id).length ≤ 1 := h
  unfold finalReport
  match hfm : rs.filterMap id with
  | [] => rw [hfm] at hmem; simp at hmem
  | [x] =>
    rw [hfm] at hmem
    simp at hmem
    rw [hmem]
    simp [pyListMin]
  | x :: y :: t =>
    rw [hfm] at hlen
    simp at hlen

/-- C9: starting from a state with an empty results table and the stop
flag clear, every run of the loop records at most one success value in
`results` (the first dequeued SUCCESS sets the stop flag and breaks out
of the drain), so the shutdown phase's report is that uniquely recorded
payload whenever one exists, regardless of which segment emitted it. -/
theorem c9_at_most_one_result (e : Nat → Bool) (f t : Nat) (s : CoordState)
    (qs : List WorkQueue) (h0 : countSome s.results = 0)
    (hstop : s.stopFlag = false) :
    countSome (runLoop e f t s qs).1.results ≤ 1 ∧
    ∀ v : String, some v ∈ (runLoop e f t s qs).1.results →
      finalReport (runLoop e f t s qs).1.results = some v := by
  have h1 := runLoop_countSome e f t s qs (by omega) (fun _ => h0)
  exact ⟨h1, fun v hv => report_of_single _ h1 hv⟩

/-- C9 witness: a concrete run in which two different segments both have
a SUCCESS line queued: only the first dequeued one is recorded and
reported. -/
theorem c9_at_most_one_result_witness :
    countSome initState.results = 0 ∧ initState.stopFlag = false ∧
    (countSome (runLoop (fun _ => false) 5 0 initState
        [[(0, "SUCCESS:12")], [(1, "SUCCESS:7")]]).1.results ≤ 1 ∧
      ∀ v : String, some v ∈ (runLoop (fun _ => false) 5 0 initState
          [[(0, "SUCCESS:12")], [(1, "SUCCESS:7")]]).1.results →
        finalReport (runLoop (fun _ => false) 5 0 initState
          [[(0, "SUCCESS:12")], [(1, "SUCCESS:7")]]).1.results = some v) :=
  ⟨by decide, rfl,
   c9_at_most_one_result (fun _ => false) 5 0 initState
     [[(0, "SUCCESS:12")], [(1, "SUCCESS:7")]] (by decide) rfl⟩

/-! ## Claim theorems: shutdown and final report -/

/-- C1 (code bug): the shutdown report applies Python's `min` to the raw
payload strings, i.e. lexicographic order, not numeric order.  With
recorded payloads "9" and "120" the code reports "120" (since
`"120" < "9"` lexicographically), whose numeric value 120 differs from
the numeric minimum `min 9 120 = 9` that the specification requires.
The empty-results branch does report no-result as claimed. -/
theorem c1_report_is_string_min_not_numeric :
    finalReport [some "9", some "120"] = some "120" ∧
    decimalValue "9" = 9 ∧ decimalValue "120" = 120 ∧
    min (decimalValue "9") (decimalValue "120") = 9 ∧
    decimalValue "120" ≠ min (decimalValue "9") (decimalValue "120") ∧
    finalReport [none, none] = none ∧
    reportMessage [none, none] = "❌ 在指定范围内未找到解。" := by decide

/-- C10: the shutdown phase calls `terminate` exactly once on each
process present in the registry, in registry order, and because every
exception of a termination call is swallowed (`except: pass`) the final
report is computed from `results` no matter what the termination calls
return. -/
theorem c10_shutdown_terminates_once_and_reports
    (term : Nat → Except String Unit) (ps : List Nat)
    (results : List (Option String)) :
    (shutdownPhase term ps results).1.map Prod.fst = ps ∧
    (∀ p : Nat, ((shutdownPhase term ps results).1.map Prod.fst).count p =
      ps.count p) ∧
    (shutdownPhase term ps results).2 = finalReport results := by
  have hmap : (terminateAll term ps).map Prod.fst = ps := by
    induction ps with
    | nil => rfl
    | cons p ps ih => simp only [terminateAll, List.map_cons, ih]
  exact ⟨hmap, fun p => by
    rw [show (shutdownPhase term ps results).1 = terminateAll term ps from rfl,
      hmap], rfl⟩

end BatchCalculate
